import Mathlib

/-!
Verification development for the Runtime Process Lifecycle Manager
(`src-tauri/src/process.rs` and `src-tauri/src/runtime_monitor.rs`).

The Rust code is shallowly embedded: the two global mutable maps (process
registry and output buffer) become an explicit state record threaded through
the operations, external effects (process spawning, Docker CLI invocations,
HTTP probes, the OS process table) become inputs drawn from an explicit
environment record, `u32` process ids become `Nat` (with `% 2^32` where the
source uses wrapping arithmetic), and `f64`/`f32` quantities are idealised
as rationals (`ℚ`), with Rust's `str::parse::<f64>` modelled on its finite
decimal fragment.
-/

set_option autoImplicit false

/-! ## String helpers mirroring the Rust standard library -/

/-- Splitting a character list at a separator, as Rust's `str::split(sep)`:
always returns at least one (possibly empty) piece. -/
def splitCharsAux (sep : Char) : List Char → List (List Char)
  | [] => [[]]
  | c :: rest =>
    let r := splitCharsAux sep rest
    if c = sep then [] :: r
    else (c :: r.headD []) :: r.tail

/-- Rust `str::split(sep).collect::<Vec<_>>()`: `"".split(sep)` yields `[""]`,
so the result is never the empty list. -/
def rustSplit (sep : Char) (s : String) : List String :=
  (splitCharsAux sep s.data).map (fun l => String.mk l)

theorem splitCharsAux_ne_nil (sep : Char) (l : List Char) :
    splitCharsAux sep l ≠ [] := by
  cases l with
  | nil => simp [splitCharsAux]
  | cons c rest =>
    simp only [splitCharsAux]
    split <;> simp

theorem rustSplit_ne_nil (sep : Char) (s : String) : rustSplit sep s ≠ [] := by
  simpa [rustSplit] using splitCharsAux_ne_nil sep s.data

/-- Rust `str::trim` (whitespace from both ends), modelled on `List Char`. -/
def rustTrim (s : String) : String :=
  String.mk (((s.data.dropWhile Char.isWhitespace).reverse.dropWhile
      Char.isWhitespace).reverse)

/-- Rust `str::to_lowercase`, idealised as per-character simple lowercasing. -/
def rustLower (s : String) : String :=
  String.mk (s.data.map Char.toLower)

/-- Substring containment on character lists (Rust `str::contains`). -/
def containsSeq : List Char → List Char → Bool
  | [], pat => pat.isEmpty
  | c :: rest, pat => pat.isPrefixOf (c :: rest) || containsSeq rest pat

/-- Rust `str::contains(pat)` for string patterns. -/
def strContains (hay pat : String) : Bool :=
  containsSeq hay.data pat.data

/-- Strip repeated occurrences of a (reversed) pattern from the front of a
(reversed) character list; the fuel argument bounds the recursion and is
always instantiated with the list length, which suffices because each
successful strip removes at least one character of a non-empty pattern. -/
def stripRepeatAux (pat : List Char) : Nat → List Char → List Char
  | 0, l => l
  | n + 1, l =>
    if pat.isPrefixOf l && !pat.isEmpty then stripRepeatAux pat n (l.drop pat.length)
    else l

/-- Rust `str::trim_end_matches(pat)` for a string pattern: repeatedly removes
the suffix `pat`. -/
def rustTrimEndMatches (pat : String) (s : String) : String :=
  String.mk (stripRepeatAux pat.data.reverse s.data.length s.data.reverse).reverse

/-- Rust `str::trim_end_matches(c)` for a character pattern: drops all trailing
occurrences of `c`. -/
def rustTrimEndChar (c : Char) (s : String) : String :=
  String.mk (s.data.reverse.dropWhile (fun d => d = c)).reverse

/-- Rust `str::ends_with(pat)`, computed on the character lists. -/
def endsWithStr (s pat : String) : Bool :=
  pat.data.reverse.isPrefixOf s.data.reverse

/-- Rust `str::lines`: split on `'\n'`, a trailing newline produces no final
empty line, and a trailing `'\r'` is stripped from each line. -/
def rustLines (s : String) : List String :=
  let parts := rustSplit '\n' s
  let parts := if parts.getLast? = some "" then parts.dropLast else parts
  parts.map (fun l => if endsWithStr l "\r" then String.mk l.data.dropLast else l)

/-! ## Association-list model of `std::collections::HashMap` -/

section AssocMap

variable {A : Type}

/-- `HashMap::get`: the value stored at a key, if any. -/
def findEntry (k : Nat) : List (Nat × A) → Option A
  | [] => none
  | (k2, v) :: rest => if k2 = k then some v else findEntry k rest

/-- `HashMap::contains_key`. -/
def containsKey (k : Nat) (m : List (Nat × A)) : Bool :=
  (findEntry k m).isSome

/-- `HashMap::insert`: replaces the value if the key is present, otherwise
adds a fresh entry. -/
def insertEntry (k : Nat) (v : A) : List (Nat × A) → List (Nat × A)
  | [] => [(k, v)]
  | (k2, v2) :: rest =>
    if k2 = k then (k, v) :: rest else (k2, v2) :: insertEntry k v rest

/-- `HashMap::get_mut` followed by an in-place update: applies `f` to the
stored value if the key is present, otherwise leaves the map unchanged. -/
def modifyEntry (k : Nat) (f : A → A) : List (Nat × A) → List (Nat × A)
  | [] => []
  | (k2, v) :: rest =>
    if k2 = k then (k2, f v) :: rest else (k2, v) :: modifyEntry k f rest

/-- The key multiset of a map, in storage order. -/
def keysOf (m : List (Nat × A)) : List Nat :=
  m.map Prod.fst

theorem findEntry_insertEntry_self (m : List (Nat × A)) (k : Nat) (v : A) :
    findEntry k (insertEntry k v m) = some v := by
  induction m with
  | nil => simp [insertEntry, findEntry]
  | cons hd tl ih =>
    obtain ⟨k2, v2⟩ := hd
    by_cases h : k2 = k <;> simp [insertEntry, findEntry, h, ih]

theorem findEntry_insertEntry_ne (m : List (Nat × A)) (k k2 : Nat) (v : A)
    (h : k2 ≠ k) : findEntry k2 (insertEntry k v m) = findEntry k2 m := by
  induction m with
  | nil => simp [insertEntry, findEntry, Ne.symm h]
  | cons hd tl ih =>
    obtain ⟨k3, v3⟩ := hd
    by_cases h3 : k3 = k
    · subst h3
      simp [insertEntry, findEntry, Ne.symm h, h]
    · by_cases h4 : k3 = k2 <;> simp [insertEntry, findEntry, h3, h4, ih, h]

theorem keysOf_insertEntry_of_mem (m : List (Nat × A)) (k : Nat) (v w : A)
    (h : findEntry k m = some w) :
    keysOf (insertEntry k v m) = keysOf m := by
  induction m with
  | nil => simp [findEntry] at h
  | cons hd tl ih =>
    obtain ⟨k2, v2⟩ := hd
    by_cases h2 : k2 = k
    · subst h2
      simp [insertEntry, keysOf]
    · simp only [findEntry, if_neg h2] at h
      simp [insertEntry, keysOf, h2, keysOf] at ih ⊢
      exact ih h

theorem containsKey_insertEntry (m : List (Nat × A)) (k k2 : Nat) (v : A)
    (h : containsKey k2 m = true) :
    containsKey k2 (insertEntry k v m) = true := by
  by_cases hk : k2 = k
  · subst hk
    simp [containsKey, findEntry_insertEntry_self]
  · simpa [containsKey, findEntry_insertEntry_ne m k k2 v hk] using h

theorem findEntry_modifyEntry_self (m : List (Nat × A)) (k : Nat) (f : A → A) :
    findEntry k (modifyEntry k f m) = (findEntry k m).map f := by
  induction m with
  | nil => simp [modifyEntry, findEntry]
  | cons hd tl ih =>
    obtain ⟨k2, v2⟩ := hd
    by_cases h2 : k2 = k <;> simp [modifyEntry, findEntry, h2, ih]

theorem findEntry_modifyEntry_ne (m : List (Nat × A)) (k k2 : Nat) (f : A → A)
    (h : k2 ≠ k) : findEntry k2 (modifyEntry k f m) = findEntry k2 m := by
  induction m with
  | nil => simp [modifyEntry]
  | cons hd tl ih =>
    obtain ⟨k3, v3⟩ := hd
    by_cases h3 : k3 = k
    · subst h3
      simp [modifyEntry, findEntry, Ne.symm h, h]
    · by_cases h4 : k3 = k2 <;> simp [modifyEntry, findEntry, h3, h4, ih, h]

theorem keysOf_modifyEntry (m : List (Nat × A)) (k : Nat) (f : A → A) :
    keysOf (modifyEntry k f m) = keysOf m := by
  induction m with
  | nil => simp [modifyEntry]
  | cons hd tl ih =>
    obtain ⟨k2, v2⟩ := hd
    by_cases h2 : k2 = k
    · simp [modifyEntry, keysOf, h2]
    · simp only [modifyEntry, if_neg h2, keysOf, List.map_cons, List.cons.injEq,
        true_and]
      simpa [keysOf] using ih

theorem containsKey_modifyEntry (m : List (Nat × A)) (k k2 : Nat) (f : A → A)
    (h : containsKey k2 m = true) :
    containsKey k2 (modifyEntry k f m) = true := by
  by_cases hk : k2 = k
  · subst hk
    simp only [containsKey, findEntry_modifyEntry_self]
    simpa [containsKey, Option.isSome_map] using h
  · simpa [containsKey, findEntry_modifyEntry_ne m k k2 f hk] using h

end AssocMap

/-! ## Data model of `process.rs` -/

/-- `ProcessStatus` from `process.rs`. -/
inductive ProcessStatus where
  | Running
  | Stopped
  | Error
deriving DecidableEq, Repr

/-- `ProcessInfo` from `process.rs`; the `u32` pid is modelled as `Nat`. -/
structure ProcessInfo where
  pid : Nat
  tool_id : String
  working_dir : String
  status : ProcessStatus
deriving DecidableEq, Repr

/-- The two global maps of `process.rs` (`process_registry` and
`process_output`), made explicit as a state record. -/
structure PState where
  registry : List (Nat × ProcessInfo)
  output : List (Nat × String)
deriving DecidableEq, Repr

/-- `AppError::ProcessError { pid, message }.to_string()` as rendered by its
`thiserror` display implementation in `error.rs`. -/
def processErrorString (pid : Nat) (message : String) : String :=
  "Process error for PID " ++ toString pid ++ ": " ++ message

/-- `spawn_cli_process` (`process.rs:40`): the time-derived pid produced by
`generate_pid` is an input here.  Inserts the new record into the registry
and an empty buffer into the output map, and returns the pid. -/
def spawn_cli_process (s : PState) (pid : Nat) (tool_id working_dir : String) :
    PState × Except String Nat :=
  let process_info : ProcessInfo :=
    { pid := pid, tool_id := tool_id, working_dir := working_dir,
      status := ProcessStatus.Running }
  ({ registry := insertEntry pid process_info s.registry,
     output := insertEntry pid "" s.output },
   Except.ok pid)

/-- `send_to_process` (`process.rs:67`): requires the pid in the registry,
then appends a simulated output line to the buffer if one exists. -/
def send_to_process (s : PState) (pid : Nat) (input : String) :
    PState × Except String Unit :=
  if containsKey pid s.registry then
    ({ s with
       output := modifyEntry pid (fun buf => buf ++ "Input: " ++ input ++ "\n")
         s.output },
     Except.ok ())
  else
    (s, Except.error (processErrorString pid "Process not found"))

/-- `kill_process` (`process.rs:88`): sets the record's status to `Stopped`
in place, or fails with a not-found error. -/
def kill_process (s : PState) (pid : Nat) : PState × Except String Unit :=
  match findEntry pid s.registry with
  | some process =>
    ({ s with
       registry := insertEntry pid { process with status := ProcessStatus.Stopped }
         s.registry },
     Except.ok ())
  | none => (s, Except.error (processErrorString pid "Process not found"))

/-- `get_process_output` (`process.rs:104`): clones the buffer, or fails with
a not-found error. -/
def get_process_output (s : PState) (pid : Nat) : Except String String :=
  match findEntry pid s.output with
  | some buf => Except.ok buf
  | none => Except.error (processErrorString pid "Process output not found")

/-- `stream_process_output` (`process.rs:335`): the buffered lines, or the
empty list when the handle is absent. -/
def stream_process_output (s : PState) (pid : Nat) :
    Except String (List String) :=
  match findEntry pid s.output with
  | some buf => Except.ok (rustLines buf)
  | none => Except.ok []

/-! ## External effects

Spawning processes, running Docker CLI commands, HTTP probes, and the OS
process table are nondeterministic external effects.  They are modelled as an
explicit environment record consulted by the operations; each field captures
the outcome the outside world would produce for that call. -/

/-- The result of a run-to-completion external command
(`std::process::Command::output`). -/
structure CommandOutput where
  success : Bool
  stdout : String
  stderr : String
deriving DecidableEq, Repr

/-- The outcome of an HTTP GET probe (`reqwest::get`): a response whose status
`is_success()` (with the body text, when the code reads it), a response with a
non-success status, or a connection-level failure. -/
inductive HttpResult where
  | success (body : Option String)
  | failure
  | connError
deriving DecidableEq, Repr

/-- One entry of the `sysinfo` process table: name, memory in bytes (`u64`),
and CPU usage percentage (an `f32`, idealised as a rational). -/
structure ProcEntry where
  name : String
  memory : Nat
  cpu_usage : ℚ
deriving DecidableEq, Repr

/-- The external world consulted by the lifecycle and monitoring operations.
`Except.error e` on a spawn or command field stands for the io error `e`
raised by the OS before the child ran. -/
structure ExtWorld where
  ollamaSpawn : Except String Nat
  localaiSpawn : Except String Nat
  genericSpawn : String → List String → Option String → Except String Nat
  dockerStart : String → Except String CommandOutput
  dockerStop : String → Except String CommandOutput
  dockerInspect : String → Except String CommandOutput
  dockerStats : String → Except String CommandOutput
  ollamaHttp : HttpResult
  localaiHttp : HttpResult
  procTable : List ProcEntry

/-- An observable backend action issued by an operation: spawning one of the
known executables or invoking the Docker CLI. -/
inductive BackendAction where
  | spawnOllama
  | spawnLocalai
  | spawnGeneric (path : String) (args : List String) (dir : Option String)
  | dockerCmd (args : List String)
deriving DecidableEq, Repr

/-! ## Runtime start paths (`process.rs`) -/

/-- `start_ollama_runtime` (`process.rs:158`): spawns `ollama serve`; on
success inserts the record into the registry.  Faithful to the source, the
background output-capture thread appends to a freshly created local buffer
that is never stored in the global output map, so the output map is not
touched by this path. -/
def start_ollama_runtime (env : ExtWorld) (s : PState) :
    PState × List BackendAction × Except String Nat :=
  match env.ollamaSpawn with
  | Except.error e =>
    (s, [BackendAction.spawnOllama], Except.error ("Failed to start Ollama: " ++ e))
  | Except.ok pid =>
    ({ s with
       registry := insertEntry pid
         { pid := pid, tool_id := "ollama", working_dir := "",
           status := ProcessStatus.Running } s.registry },
     [BackendAction.spawnOllama], Except.ok pid)

/-- `start_localai_runtime` (`process.rs:200`): spawns `local-ai`; on success
inserts the record into the registry only (no output-map insertion). -/
def start_localai_runtime (env : ExtWorld) (s : PState) :
    PState × List BackendAction × Except String Nat :=
  match env.localaiSpawn with
  | Except.error e =>
    (s, [BackendAction.spawnLocalai], Except.error ("Failed to start LocalAI: " ++ e))
  | Except.ok pid =>
    ({ s with
       registry := insertEntry pid
         { pid := pid, tool_id := "localai", working_dir := "",
           status := ProcessStatus.Running } s.registry },
     [BackendAction.spawnLocalai], Except.ok pid)

/-- The UTF-8 encoding of a character as byte values. -/
def utf8Bytes (c : Char) : List Nat :=
  let n := c.toNat
  if n < 0x80 then [n]
  else if n < 0x800 then [0xC0 + n / 0x40, 0x80 + n % 0x40]
  else if n < 0x10000 then
    [0xE0 + n / 0x1000, 0x80 + (n / 0x40) % 0x40, 0x80 + n % 0x40]
  else
    [0xF0 + n / 0x40000, 0x80 + (n / 0x1000) % 0x40, 0x80 + (n / 0x40) % 0x40,
     0x80 + n % 0x40]

/-- The UTF-8 bytes of a string (`str::bytes`). -/
def stringBytes (s : String) : List Nat :=
  (s.data.map utf8Bytes).flatten

/-- `container_id.bytes().fold(0u32, |acc, b| acc.wrapping_add(b as u32))`:
the Docker pseudo-handle, a wrapping 32-bit sum of the UTF-8 byte values. -/
def byteSumWrap (s : String) : Nat :=
  (stringBytes s).foldl (fun acc b => (acc + b) % 2 ^ 32) 0

/-- `start_docker_runtime` (`process.rs:223`): runs `docker start <id>`; on
command success returns the pseudo-handle, touching neither map. -/
def start_docker_runtime (env : ExtWorld) (s : PState) (container_id : String) :
    PState × List BackendAction × Except String Nat :=
  match env.dockerStart container_id with
  | Except.error e =>
    (s, [BackendAction.dockerCmd ["start", container_id]],
     Except.error ("Failed to start Docker container: " ++ e))
  | Except.ok out =>
    if out.success then
      (s, [BackendAction.dockerCmd ["start", container_id]],
       Except.ok (byteSumWrap container_id))
    else
      (s, [BackendAction.dockerCmd ["start", container_id]],
       Except.error ("Docker start failed: " ++ out.stderr))

/-- `start_generic_runtime` (`process.rs:241`): spawns the given executable;
on success inserts the record into the registry only. -/
def start_generic_runtime (env : ExtWorld) (s : PState) (executable_path : String)
    (args : List String) (working_dir : Option String) :
    PState × List BackendAction × Except String Nat :=
  match env.genericSpawn executable_path args working_dir with
  | Except.error e =>
    (s, [BackendAction.spawnGeneric executable_path args working_dir],
     Except.error ("Failed to start process: " ++ e))
  | Except.ok pid =>
    ({ s with
       registry := insertEntry pid
         { pid := pid, tool_id := executable_path, working_dir := "",
           status := ProcessStatus.Running } s.registry },
     [BackendAction.spawnGeneric executable_path args working_dir], Except.ok pid)

/-- `start_runtime` (`process.rs:126`): splits the identifier at `'_'`
(`parts`), keeps the source's `parts.is_empty()` guard as the `[]` match arm
(which `rustSplit` can never reach), and dispatches on `parts[0]`; the
`rest` match on the Docker arm is the source's `parts.len() >= 2` test with
`parts[1]` as the container id. -/
def start_runtime (env : ExtWorld) (s : PState) (runtime_id executable_path : String)
    (args : List String) (working_dir : Option String) :
    PState × List BackendAction × Except String Nat :=
  match rustSplit '_' runtime_id with
  | [] => (s, [], Except.error "Invalid runtime ID")
  | runtime_type :: rest =>
    if runtime_type = "ollama" then start_ollama_runtime env s
    else if runtime_type = "localai" then start_localai_runtime env s
    else if runtime_type = "docker" then
      match rest with
      | container_id :: _ => start_docker_runtime env s container_id
      | [] => (s, [], Except.error "Invalid Docker runtime ID")
    else start_generic_runtime env s executable_path args working_dir

/-- `stop_docker_runtime` (`process.rs:301`): runs `docker stop <id>`. -/
def stop_docker_runtime (env : ExtWorld) (s : PState) (container_id : String) :
    PState × List BackendAction × Except String Unit :=
  match env.dockerStop container_id with
  | Except.error e =>
    (s, [BackendAction.dockerCmd ["stop", container_id]],
     Except.error ("Failed to stop Docker container: " ++ e))
  | Except.ok out =>
    if out.success then
      (s, [BackendAction.dockerCmd ["stop", container_id]], Except.ok ())
    else
      (s, [BackendAction.dockerCmd ["stop", container_id]],
       Except.error ("Docker stop failed: " ++ out.stderr))

/-- `stop_runtime` (`process.rs:276`): only the Docker arm acts; every other
type tag fails with the not-yet-implemented error. -/
def stop_runtime (env : ExtWorld) (s : PState) (runtime_id : String) :
    PState × List BackendAction × Except String Unit :=
  match rustSplit '_' runtime_id with
  | [] => (s, [], Except.error "Invalid runtime ID")
  | runtime_type :: rest =>
    if runtime_type = "docker" then
      match rest with
      | container_id :: _ => stop_docker_runtime env s container_id
      | [] => (s, [], Except.error "Invalid Docker runtime ID")
    else
      (s, [], Except.error "Stopping non-Docker runtimes not yet implemented")

/-- `restart_runtime` (`process.rs:319`): the stop result is only logged
(`eprintln!`) and discarded; after the fixed one-second settling delay (real
time, outside this state model) `start_runtime` runs with empty executable
path, empty args and no working directory. -/
def restart_runtime (env : ExtWorld) (s : PState) (runtime_id : String) :
    PState × List BackendAction × Except String Nat :=
  let stopRes := stop_runtime env s runtime_id
  let startRes := start_runtime env stopRes.1 runtime_id "" [] none
  (startRes.1, stopRes.2.1 ++ startRes.2.1, startRes.2.2)

/-! ## Data model of `runtime_monitor.rs` -/

/-- `RuntimeStatus` from `runtime_monitor.rs`. -/
structure RuntimeStatus where
  status : String
  version : Option String
  uptime_seconds : Option Nat
  port : Option Nat
  error : Option String
deriving DecidableEq, Repr

/-- `ResourceUsage` from `runtime_monitor.rs`; the `f64` fields are idealised
as rationals. -/
structure ResourceUsage where
  memory_mb : ℚ
  vram_mb : Option ℚ
  cpu_percent : ℚ
deriving DecidableEq, Repr

/-- The numeric value of a digit list read in base 10. -/
def digitsToNat (ds : List Char) : Nat :=
  ds.foldl (fun a c => a * 10 + (c.toNat - 48)) 0

/-- Leading-sign handling of Rust's float grammar: `+` gives `1`, `-` gives
`-1`, anything else leaves the input untouched with sign `1`. -/
def parseSign (cs : List Char) : ℚ × List Char :=
  match cs with
  | [] => (1, [])
  | c :: r => if c = '+' then (1, r) else if c = '-' then ((-1 : ℚ), r) else (1, c :: r)

/-- The optional fractional part: a leading `'.'` starts a fraction digit
run; the flag records whether the dot was present. -/
def splitFrac (cs : List Char) : Bool × List Char × List Char :=
  match cs with
  | [] => (false, [], [])
  | c :: r =>
    if c = '.' then (true, r.takeWhile Char.isDigit, r.dropWhile Char.isDigit)
    else (false, [], c :: r)

/-- The optional sign of the exponent; `true` means non-negative. -/
def parseExpSign (cs : List Char) : Bool × List Char :=
  match cs with
  | [] => (true, [])
  | c :: r => if c = '+' then (true, r) else if c = '-' then (false, r) else (true, c :: r)

/-- The optional decimal exponent suffix applied to the signed mantissa:
nothing left yields the plain value, `e`/`E` followed by sign and digits
(and nothing else) scales by the corresponding power of ten, anything else
rejects the whole input. -/
def parseExp (sign mant : ℚ) (cs : List Char) : Option ℚ :=
  match cs with
  | [] => some (sign * mant)
  | e :: r =>
    if e = 'e' || e = 'E' then
      let es := parseExpSign r
      let ed := es.2.takeWhile Char.isDigit
      let rest := es.2.dropWhile Char.isDigit
      if ed.isEmpty || !rest.isEmpty then none
      else
        let p : ℚ := (10 : ℚ) ^ digitsToNat ed
        some (sign * (if es.1 then mant * p else mant / p))
    else none

/-- Rust `str::parse::<f64>()`, idealised over `ℚ` on the finite decimal
fragment of the f64 grammar: optional sign, an integer and/or fractional
digit string, and an optional decimal exponent.  The special forms
`inf`/`infinity`/`NaN`, which have no rational counterpart, are outside the
model and parse as `none`. -/
def parseF (s : String) : Option ℚ :=
  let sr := parseSign s.data
  let ip := sr.2.takeWhile Char.isDigit
  let cs2 := sr.2.dropWhile Char.isDigit
  let fr := splitFrac cs2
  if ip.isEmpty && (!fr.1 || fr.2.1.isEmpty) then none
  else
    let mant : ℚ :=
      (digitsToNat ip : ℚ) + (digitsToNat fr.2.1 : ℚ) / (10 ^ fr.2.1.length : ℚ)
    parseExp sr.1 mant fr.2.2

/-- `parse_memory_string` (`runtime_monitor.rs:436`): trim, then convert by
unit suffix (`GiB → ×1024`, `MiB → ×1`, `KiB → ÷1024`); an unrecognised
suffix, or a prefix `parse::<f64>()` rejects, yields `0.0` via
`unwrap_or(0.0)`. -/
def parse_memory_string (mem_str : String) : ℚ :=
  let m := rustTrim mem_str
  if endsWithStr m "GiB" then
    ((parseF (rustTrimEndMatches "GiB" m)).getD 0) * 1024
  else if endsWithStr m "MiB" then
    (parseF (rustTrimEndMatches "MiB" m)).getD 0
  else if endsWithStr m "KiB" then
    ((parseF (rustTrimEndMatches "KiB" m)).getD 0) / 1024
  else 0

/-- `check_ollama_status` (`runtime_monitor.rs:263`): probe
`GET localhost:11434/api/version`. -/
def check_ollama_status (env : ExtWorld) : Except String RuntimeStatus :=
  match env.ollamaHttp with
  | HttpResult.success body =>
    Except.ok
      { status := "running", version := body, uptime_seconds := none,
        port := some 11434, error := none }
  | HttpResult.failure =>
    Except.ok
      { status := "error", version := none, uptime_seconds := none,
        port := some 11434, error := some "Ollama API returned error" }
  | HttpResult.connError =>
    Except.ok
      { status := "stopped", version := none, uptime_seconds := none,
        port := some 11434, error := none }

/-- `check_localai_status` (`runtime_monitor.rs:294`): probe
`GET localhost:8080/readyz`; the success arm does not read the body. -/
def check_localai_status (env : ExtWorld) : Except String RuntimeStatus :=
  match env.localaiHttp with
  | HttpResult.success _ =>
    Except.ok
      { status := "running", version := none, uptime_seconds := none,
        port := some 8080, error := none }
  | HttpResult.failure =>
    Except.ok
      { status := "error", version := none, uptime_seconds := none,
        port := some 8080, error := some "LocalAI API returned error" }
  | HttpResult.connError =>
    Except.ok
      { status := "stopped", version := none, uptime_seconds := none,
        port := some 8080, error := none }

/-- `check_docker_status` (`runtime_monitor.rs:322`): `docker inspect
--format <state>` and compare the trimmed stdout against `"running"`. -/
def check_docker_status (env : ExtWorld) (container_id : String) :
    Except String RuntimeStatus :=
  match env.dockerInspect container_id with
  | Except.error e => Except.error e
  | Except.ok out =>
    if out.success then
      Except.ok
        { status := if rustTrim out.stdout = "running" then "running" else "stopped",
          version := none, uptime_seconds := none, port := none, error := none }
    else Except.error "Failed to inspect Docker container"

/-- `get_runtime_status` (`runtime_monitor.rs:229`): identifier split and
dispatch exactly as in `start_runtime`, with interpreter type tags reporting
a stopped status and unknown tags rejected. -/
def get_runtime_status (env : ExtWorld) (runtime_id : String) :
    Except String RuntimeStatus :=
  match rustSplit '_' runtime_id with
  | [] => Except.error "Invalid runtime ID"
  | runtime_type :: rest =>
    if runtime_type = "ollama" then check_ollama_status env
    else if runtime_type = "localai" then check_localai_status env
    else if runtime_type = "docker" then
      match rest with
      | container_id :: _ => check_docker_status env container_id
      | [] => Except.error "Invalid Docker runtime ID"
    else if runtime_type = "python" || runtime_type = "node" then
      Except.ok
        { status := "stopped", version := none, uptime_seconds := none,
          port := none, error := none }
    else Except.error ("Unknown runtime type: " ++ runtime_type)

/-- The accumulation loop of `estimate_process_usage`
(`runtime_monitor.rs:382`): total memory and CPU over the process-table
entries whose lowercased name contains the lowercased target name. -/
def sumProcUsage (procs : List ProcEntry) (process_name : String) : Nat × ℚ :=
  procs.foldl
    (fun acc p =>
      if strContains (rustLower p.name) (rustLower process_name) then
        (acc.1 + p.memory, acc.2 + p.cpu_usage)
      else acc)
    (0, 0)

/-- `estimate_process_usage` (`runtime_monitor.rs:375`): bytes to MB by two
divisions by 1024; VRAM is never filled in. -/
def estimate_process_usage (procs : List ProcEntry) (process_name : String) :
    Except String ResourceUsage :=
  let totals := sumProcUsage procs process_name
  Except.ok
    { memory_mb := (totals.1 : ℚ) / 1024 / 1024,
      vram_mb := none,
      cpu_percent := totals.2 }

/-- `estimate_docker_usage` (`runtime_monitor.rs:397`): parse the
`docker stats` line `"<mem> / <total>|<cpu>%"`; the memory field is the part
before `'/'` (the `unwrap_or("0")` default is unreachable because `split`
always yields a first piece), trimmed, converted by `parse_memory_string`;
the CPU field is trimmed, stripped of trailing `'%'`, and parsed with the
same `unwrap_or(0.0)` fallback. -/
def estimate_docker_usage (env : ExtWorld) (container_id : String) :
    Except String ResourceUsage :=
  match env.dockerStats container_id with
  | Except.error e => Except.error e
  | Except.ok out =>
    if !out.success then Except.error "Failed to get Docker stats"
    else
      let parts := rustSplit '|' (rustTrim out.stdout)
      match parts with
      | p0 :: p1 :: _ =>
        let memory_str := rustTrim ((rustSplit '/' p0).headD "0")
        let memory_mb := parse_memory_string memory_str
        let cpu_str := rustTrimEndChar '%' (rustTrim p1)
        let cpu_percent := (parseF cpu_str).getD 0
        Except.ok
          { memory_mb := memory_mb, vram_mb := none, cpu_percent := cpu_percent }
      | _ => Except.error "Failed to parse Docker stats"

/-- `estimate_resource_usage` (`runtime_monitor.rs:348`): dispatch on the
type tag; every tag other than `ollama`/`localai`/`docker` answers a
zero-usage result. -/
def estimate_resource_usage (env : ExtWorld) (runtime_id : String) :
    Except String ResourceUsage :=
  match rustSplit '_' runtime_id with
  | [] => Except.error "Invalid runtime ID"
  | runtime_type :: rest =>
    if runtime_type = "ollama" then estimate_process_usage env.procTable "ollama"
    else if runtime_type = "localai" then
      estimate_process_usage env.procTable "local-ai"
    else if runtime_type = "docker" then
      match rest with
      | container_id :: _ => estimate_docker_usage env container_id
      | [] => Except.error "Invalid Docker runtime ID"
    else
      Except.ok { memory_mb := 0, vram_mb := none, cpu_percent := 0 }

/-! ## Concrete states and environments used by witnesses -/

/-- The state with empty registry and output maps (both global maps start
empty). -/
def emptyState : PState := { registry := [], output := [] }

/-- A concrete external world in which every spawn and Docker command
succeeds. -/
def baseWorld : ExtWorld :=
  { ollamaSpawn := Except.ok 5
    localaiSpawn := Except.ok 6
    genericSpawn := fun _ _ _ => Except.ok 9
    dockerStart := fun _ => Except.ok { success := true, stdout := "", stderr := "" }
    dockerStop := fun _ => Except.ok { success := true, stdout := "", stderr := "" }
    dockerInspect := fun _ =>
      Except.ok { success := true, stdout := "running", stderr := "" }
    dockerStats := fun _ =>
      Except.ok { success := true, stdout := "10MiB / 2GiB|5%", stderr := "" }
    ollamaHttp := HttpResult.connError
    localaiHttp := HttpResult.connError
    procTable := [] }

/-- A world whose Docker inspect reports a paused container. -/
def pausedWorld : ExtWorld :=
  { baseWorld with
    dockerInspect := fun _ =>
      Except.ok { success := true, stdout := "paused", stderr := "" } }

/-- A world whose Docker stats line carries a negative memory reading. -/
def negStatsWorld : ExtWorld :=
  { baseWorld with
    dockerStats := fun _ =>
      Except.ok { success := true, stdout := "-5MiB / 2GiB|10%", stderr := "" } }

/-! ## Helper lemmas on the lifecycle operations -/

theorem stop_docker_runtime_state (env : ExtWorld) (s : PState) (c : String) :
    (stop_docker_runtime env s c).1 = s := by
  unfold stop_docker_runtime
  cases env.dockerStop c with
  | error e => rfl
  | ok out => by_cases h : out.success <;> simp [h]

theorem stop_runtime_state (env : ExtWorld) (s : PState) (rid : String) :
    (stop_runtime env s rid).1 = s := by
  unfold stop_runtime
  rcases h : rustSplit '_' rid with _ | ⟨rt, rest⟩
  · rfl
  · by_cases hd : rt = "docker"
    · rcases rest with _ | ⟨c, rest⟩ <;>
        simp [hd, stop_docker_runtime_state]
    · simp [hd]

theorem start_runtime_output (env : ExtWorld) (s : PState)
    (rid exe : String) (args : List String) (wd : Option String) :
    (start_runtime env s rid exe args wd).1.output = s.output := by
  unfold start_runtime
  rcases h : rustSplit '_' rid with _ | ⟨rt, rest⟩
  · rfl
  · by_cases h1 : rt = "ollama"
    · unfold start_ollama_runtime
      cases env.ollamaSpawn <;> simp [h1]
    · by_cases h2 : rt = "localai"
      · unfold start_localai_runtime
        cases env.localaiSpawn <;> simp [h1, h2]
      · by_cases h3 : rt = "docker"
        · rcases rest with _ | ⟨c, rest⟩
          · simp [h1, h2, h3]
          · unfold start_docker_runtime
            cases hc : env.dockerStart c with
            | error e => simp [h1, h2, h3, hc]
            | ok out => by_cases hs : out.success <;> simp [h1, h2, h3, hc, hs]
        · unfold start_generic_runtime
          cases env.genericSpawn exe args wd <;> simp [h1, h2, h3]

theorem start_runtime_registry_monotone (env : ExtWorld) (s : PState)
    (rid exe : String) (args : List String) (wd : Option String) (k : Nat)
    (hk : containsKey k s.registry = true) :
    containsKey k (start_runtime env s rid exe args wd).1.registry = true := by
  unfold start_runtime
  rcases h : rustSplit '_' rid with _ | ⟨rt, rest⟩
  · exact hk
  · by_cases h1 : rt = "ollama"
    · unfold start_ollama_runtime
      cases env.ollamaSpawn <;> simp [h1, containsKey_insertEntry, hk]
    · by_cases h2 : rt = "localai"
      · unfold start_localai_runtime
        cases env.localaiSpawn <;> simp [h1, h2, containsKey_insertEntry, hk]
      · by_cases h3 : rt = "docker"
        · rcases rest with _ | ⟨c, rest⟩
          · simpa [h1, h2, h3] using hk
          · unfold start_docker_runtime
            cases hc : env.dockerStart c with
            | error e => simpa [h1, h2, h3, hc] using hk
            | ok out =>
              by_cases hs : out.success <;> simpa [h1, h2, h3, hc, hs] using hk
        · unfold start_generic_runtime
          cases env.genericSpawn exe args wd <;>
            simp [h1, h2, h3, containsKey_insertEntry, hk]

/-! ## Claim theorems -/

/-- C5: for every identifier, `restart_runtime` never propagates a stop-phase
error: the stop result is discarded (its error only logged), and after the
fixed settling delay the returned state and result are exactly those of
`start_runtime` invoked with empty executable path, empty args and no
working directory — a new handle or a start-phase error. -/
theorem C5_restart_ignores_stop_error (env : ExtWorld) (s : PState)
    (rid : String) :
    restart_runtime env s rid =
      ((start_runtime env s rid "" [] none).1,
       (stop_runtime env s rid).2.1 ++ (start_runtime env s rid "" [] none).2.1,
       (start_runtime env s rid "" [] none).2.2) := by
  unfold restart_runtime
  dsimp only
  rw [stop_runtime_state]

/-- C2: for every handle absent from the process registry, `send_to_process`
and `kill_process` return a not-found error leaving the state unchanged; for
every handle absent from the output buffer, `get_process_output` returns a
not-found error while `stream_process_output` returns the empty list. -/
theorem C2_absent_handle_errors (s : PState) (pid : Nat) (input : String) :
    (containsKey pid s.registry = false →
      send_to_process s pid input =
        (s, Except.error (processErrorString pid "Process not found")) ∧
      kill_process s pid =
        (s, Except.error (processErrorString pid "Process not found"))) ∧
    (findEntry pid s.output = none →
      get_process_output s pid =
        Except.error (processErrorString pid "Process output not found") ∧
      stream_process_output s pid = Except.ok []) := by
  constructor
  · intro h
    have hf : findEntry pid s.registry = none := by
      simpa [containsKey, Option.isSome_iff_exists] using h
    constructor
    · simp [send_to_process, h]
    · simp [kill_process, hf]
  · intro h
    constructor
    · simp [get_process_output, h]
    · simp [stream_process_output, h]

/-- Witness for C2 at the empty state and handle 7. -/
theorem C2_absent_handle_errors_witness :
    containsKey 7 emptyState.registry = false ∧
    findEntry 7 emptyState.output = none ∧
    kill_process emptyState 7 =
      (emptyState, Except.error (processErrorString 7 "Process not found")) ∧
    stream_process_output emptyState 7 = Except.ok [] :=
  ⟨by decide, rfl,
   ((C2_absent_handle_errors emptyState 7 "x").1 (by decide)).2,
   ((C2_absent_handle_errors emptyState 7 "x").2 rfl).2⟩

/-- C9: for every identifier whose type tag is not `docker`, `stop_runtime`
returns the explicit not-yet-implemented error, leaves the state unchanged
and performs no backend action; for a docker identifier with a container
segment it issues exactly the `docker stop` command and succeeds exactly when
that command succeeded — never a silent no-op. -/
theorem C9_stop_dispatch (env : ExtWorld) (s : PState) (rid : String) :
    ((rustSplit '_' rid).headD "" ≠ "docker" →
      stop_runtime env s rid =
        (s, [], Except.error "Stopping non-Docker runtimes not yet implemented")) ∧
    (∀ c rest, rustSplit '_' rid = "docker" :: c :: rest →
      (stop_runtime env s rid).2.1 = [BackendAction.dockerCmd ["stop", c]] ∧
      ((stop_runtime env s rid).2.2 = Except.ok () ↔
        ∃ out, env.dockerStop c = Except.ok out ∧ out.success = true)) := by
  constructor
  · intro h
    rcases hs : rustSplit '_' rid with _ | ⟨rt, rest⟩
    · exact absurd hs (rustSplit_ne_nil '_' rid)
    · rw [hs] at h
      simp only [List.headD_cons] at h
      simp [stop_runtime, hs, h]
  · intro c rest hs
    unfold stop_runtime stop_docker_runtime
    rw [hs]
    simp only [if_pos rfl]
    cases hc : env.dockerStop c with
    | error e =>
      refine ⟨rfl, ?_⟩
      constructor
      · intro h
        simp at h
      · rintro ⟨out, hout, _⟩
        simp at hout
    | ok out =>
      by_cases hsu : out.success
      · refine ⟨by simp [hsu], ?_⟩
        constructor
        · intro _
          exact ⟨out, rfl, hsu⟩
        · intro _
          simp [hsu]
      · refine ⟨by simp [hsu], ?_⟩
        constructor
        · intro h
          simp [hsu] at h
        · rintro ⟨out2, hout2, hsu2⟩
          rw [Except.ok.injEq] at hout2
          subst hout2
          exact absurd hsu2 hsu

/-- Witness for C9: a non-docker identifier is refused as unimplemented, and
a docker identifier with a successful stop command returns ok having issued
exactly the stop command. -/
theorem C9_stop_dispatch_witness :
    stop_runtime baseWorld emptyState "ollama_ollama" =
      (emptyState, [],
       Except.error "Stopping non-Docker runtimes not yet implemented") ∧
    (stop_runtime baseWorld emptyState "docker_ab").2.1 =
      [BackendAction.dockerCmd ["stop", "ab"]] ∧
    (stop_runtime baseWorld emptyState "docker_ab").2.2 = Except.ok () := by
  refine ⟨(C9_stop_dispatch baseWorld emptyState "ollama_ollama").1 (by decide),
    ((C9_stop_dispatch baseWorld emptyState "docker_ab").2 "ab" [] (by decide)).1,
    ?_⟩
  exact (((C9_stop_dispatch baseWorld emptyState "docker_ab").2 "ab" []
    (by decide)).2).2 ⟨{ success := true, stdout := "", stderr := "" }, rfl, rfl⟩

theorem foldl_mod_add (m : Nat) (l : List Nat) (a : Nat) :
    l.foldl (fun acc b => (acc + b) % m) (a % m) =
      (l.foldl (fun acc b => acc + b) a) % m := by
  induction l generalizing a with
  | nil => simp
  | cons b tl ih =>
    simp only [List.foldl_cons]
    rw [Nat.mod_add_mod, ih]

/-- C7: for every docker identifier with a container-reference segment whose
`docker start` command succeeds, `start_runtime` returns the deterministic
pseudo-handle: the wrapping 32-bit sum of the byte values of the container
reference, i.e. their plain sum modulo `2^32` — not an OS process id. -/
theorem C7_docker_pseudo_handle (env : ExtWorld) (s : PState)
    (rid exe : String) (args : List String) (wd : Option String)
    (c : String) (rest : List String) (out : CommandOutput)
    (hs : rustSplit '_' rid = "docker" :: c :: rest)
    (hc : env.dockerStart c = Except.ok out)
    (hsu : out.success = true) :
    (start_runtime env s rid exe args wd).2.2 = Except.ok (byteSumWrap c) ∧
    byteSumWrap c =
      ((stringBytes c).foldl (fun acc b => acc + b) 0) % 2 ^ 32 := by
  constructor
  · simp [start_runtime, hs, start_docker_runtime, hc, hsu]
  · unfold byteSumWrap
    simpa using foldl_mod_add (2 ^ 32) (stringBytes c) 0

/-- Witness for C7 at the identifier `docker_ab`: the pseudo-handle is
97 + 98 = 195. -/
theorem C7_docker_pseudo_handle_witness :
    (start_runtime baseWorld emptyState "docker_ab" "" [] none).2.2 =
      Except.ok (byteSumWrap "ab") ∧
    byteSumWrap "ab" =
      ((stringBytes "ab").foldl (fun acc b => acc + b) 0) % 2 ^ 32 ∧
    byteSumWrap "ab" = 195 :=
  ⟨(C7_docker_pseudo_handle baseWorld emptyState "docker_ab" "" [] none
      "ab" [] { success := true, stdout := "", stderr := "" }
      (by decide) rfl rfl).1,
   (C7_docker_pseudo_handle baseWorld emptyState "docker_ab" "" [] none
      "ab" [] { success := true, stdout := "", stderr := "" }
      (by decide) rfl rfl).2,
   by decide⟩

/-- C10: `kill_process` on a registered handle succeeds and mutates only the
status field of the targeted record (to `Stopped`); every other registry
entry, the key multiset of the registry, the whole output map, and the
captured output retrievable through `get_process_output` are unchanged; and
no mutating public operation (`spawn_cli_process`, `send_to_process`,
`kill_process`, `start_runtime`) ever removes an entry from either map. -/
theorem C10_kill_frame (s : PState) (pid : Nat) (info : ProcessInfo)
    (h : findEntry pid s.registry = some info) :
    (kill_process s pid).2 = Except.ok () ∧
    findEntry pid (kill_process s pid).1.registry =
      some { info with status := ProcessStatus.Stopped } ∧
    (∀ k, k ≠ pid →
      findEntry k (kill_process s pid).1.registry = findEntry k s.registry) ∧
    keysOf (kill_process s pid).1.registry = keysOf s.registry ∧
    (kill_process s pid).1.output = s.output ∧
    (∀ k, get_process_output (kill_process s pid).1 k = get_process_output s k) ∧
    (∀ s2 pid2 t w k,
      (containsKey k s2.registry = true →
        containsKey k (spawn_cli_process s2 pid2 t w).1.registry = true) ∧
      (containsKey k s2.output = true →
        containsKey k (spawn_cli_process s2 pid2 t w).1.output = true)) ∧
    (∀ s2 pid2 inp k,
      (send_to_process s2 pid2 inp).1.registry = s2.registry ∧
      (containsKey k s2.output = true →
        containsKey k (send_to_process s2 pid2 inp).1.output = true)) ∧
    (∀ s2 pid2 k, containsKey k s2.registry = true →
      containsKey k (kill_process s2 pid2).1.registry = true) ∧
    (∀ env s2 rid exe args wd k,
      (containsKey k s2.registry = true →
        containsKey k (start_runtime env s2 rid exe args wd).1.registry = true) ∧
      (start_runtime env s2 rid exe args wd).1.output = s2.output) := by
  refine ⟨by simp [kill_process, h], ?_, ?_, ?_, ?_, ?_, ?_, ?_, ?_, ?_⟩
  · simp [kill_process, h, findEntry_insertEntry_self]
  · intro k hk
    simp [kill_process, h, findEntry_insertEntry_ne _ _ _ _ hk]
  · simp [kill_process, h]
    exact keysOf_insertEntry_of_mem _ _ _ _ h
  · simp [kill_process, h]
  · intro k
    simp [kill_process, h, get_process_output]
  · intro s2 pid2 t w k
    exact ⟨fun hk => containsKey_insertEntry _ _ _ _ hk,
      fun hk => containsKey_insertEntry _ _ _ _ hk⟩
  · intro s2 pid2 inp k
    by_cases hr : containsKey pid2 s2.registry
    · refine ⟨by simp [send_to_process, hr], ?_⟩
      intro hk
      simp only [send_to_process, if_pos hr]
      exact containsKey_modifyEntry _ _ _ _ hk
    · refine ⟨by simp [send_to_process, hr], ?_⟩
      intro hk
      simpa [send_to_process, hr] using hk
  · intro s2 pid2 k hk
    rcases h2 : findEntry pid2 s2.registry with _ | info2
    · simpa [kill_process, h2] using hk
    · simp [kill_process, h2]
      exact containsKey_insertEntry _ _ _ _ hk
  · intro env s2 rid exe args wd k
    exact ⟨start_runtime_registry_monotone env s2 rid exe args wd k,
      start_runtime_output env s2 rid exe args wd⟩

/-- A one-entry sample record for the C10 witness. -/
def killSampleInfo : ProcessInfo :=
  { pid := 3, tool_id := "t", working_dir := "w",
    status := ProcessStatus.Running }

/-- A one-entry sample state for the C10 witness. -/
def killSampleState : PState :=
  { registry := [(3, killSampleInfo)], output := [(3, "hello")] }

/-- Witness for C10 at a one-entry registry. -/
theorem C10_kill_frame_witness :
    (kill_process killSampleState 3).1 =
      { registry := [(3, { killSampleInfo with status := ProcessStatus.Stopped })],
        output := [(3, "hello")] } ∧
    get_process_output (kill_process killSampleState 3).1 3 =
      Except.ok "hello" := by
  have h := C10_kill_frame killSampleState 3 killSampleInfo (by decide)
  exact ⟨by decide, by
    rw [h.2.2.2.2.2.1 3]
    rfl⟩

/-- C1 counterexample: the claim that every local-executable start path
inserts the new handle into both maps fails on the ollama path: after a
successful `start_ollama_runtime` (pid 5) the handle is in the process
registry but not in the output buffer map. -/
theorem C1_counterexample :
    (start_runtime baseWorld emptyState "ollama_ollama" "" [] none).2.2 =
      Except.ok 5 ∧
    containsKey 5
      (start_runtime baseWorld emptyState "ollama_ollama" "" [] none).1.registry =
      true ∧
    containsKey 5
      (start_runtime baseWorld emptyState "ollama_ollama" "" [] none).1.output =
      false :=
  ⟨rfl, by decide, by decide⟩

/-- C1 (amended): only `spawn_cli_process` inserts the new handle into both
the process registry and the output buffer; the ollama, localai and generic
start paths insert the handle into the registry only, leaving the output
buffer untouched; and the Docker start path touches neither map. -/
theorem C1_start_path_insertions :
    (∀ s pid tool wd,
      findEntry pid (spawn_cli_process s pid tool wd).1.registry =
        some { pid := pid, tool_id := tool, working_dir := wd,
               status := ProcessStatus.Running } ∧
      findEntry pid (spawn_cli_process s pid tool wd).1.output = some "") ∧
    (∀ env s pid, env.ollamaSpawn = Except.ok pid →
      findEntry pid (start_ollama_runtime env s).1.registry =
        some { pid := pid, tool_id := "ollama", working_dir := "",
               status := ProcessStatus.Running } ∧
      (start_ollama_runtime env s).1.output = s.output) ∧
    (∀ env s pid, env.localaiSpawn = Except.ok pid →
      findEntry pid (start_localai_runtime env s).1.registry =
        some { pid := pid, tool_id := "localai", working_dir := "",
               status := ProcessStatus.Running } ∧
      (start_localai_runtime env s).1.output = s.output) ∧
    (∀ env s exe args wd pid, env.genericSpawn exe args wd = Except.ok pid →
      findEntry pid (start_generic_runtime env s exe args wd).1.registry =
        some { pid := pid, tool_id := exe, working_dir := "",
               status := ProcessStatus.Running } ∧
      (start_generic_runtime env s exe args wd).1.output = s.output) ∧
    (∀ env s c, (start_docker_runtime env s c).1 = s) := by
  refine ⟨?_, ?_, ?_, ?_, ?_⟩
  · intro s pid tool wd
    exact ⟨findEntry_insertEntry_self _ _ _, findEntry_insertEntry_self _ _ _⟩
  · intro env s pid h
    unfold start_ollama_runtime
    rw [h]
    exact ⟨findEntry_insertEntry_self _ _ _, rfl⟩
  · intro env s pid h
    unfold start_localai_runtime
    rw [h]
    exact ⟨findEntry_insertEntry_self _ _ _, rfl⟩
  · intro env s exe args wd pid h
    unfold start_generic_runtime
    rw [h]
    exact ⟨findEntry_insertEntry_self _ _ _, rfl⟩
  · intro env s c
    unfold start_docker_runtime
    cases env.dockerStart c with
    | error e => rfl
    | ok out => by_cases h : out.success <;> simp [h]

/-- Witness for C1 (amended) on the ollama path at pid 5. -/
theorem C1_start_path_insertions_witness :
    findEntry 5 (start_ollama_runtime baseWorld emptyState).1.registry =
      some { pid := 5, tool_id := "ollama", working_dir := "",
             status := ProcessStatus.Running } ∧
    (start_ollama_runtime baseWorld emptyState).1.output = [] := by
  have h := C1_start_path_insertions.2.1 baseWorld emptyState 5 rfl
  exact ⟨h.1, h.2⟩

/-- C3: the source's `parts.is_empty()` guard is dead code — Rust `split`
always yields at least one piece — so an empty identifier is NOT rejected
with "Invalid runtime ID": `start_runtime` proceeds to a generic spawn,
`estimate_resource_usage` answers a zero-usage result, `get_runtime_status`
reports an unknown type, and `stop_runtime` reports the unimplemented-stop
error.  The Docker half of the guard (missing container segment) does
reject. -/
theorem C3_empty_identifier_not_rejected :
    (start_runtime baseWorld emptyState "" "exe" [] none).2.2 = Except.ok 9 ∧
    (start_runtime baseWorld emptyState "" "exe" [] none).2.1 =
      [BackendAction.spawnGeneric "exe" [] none] ∧
    estimate_resource_usage baseWorld "" =
      Except.ok { memory_mb := 0, vram_mb := none, cpu_percent := 0 } ∧
    get_runtime_status baseWorld "" = Except.error "Unknown runtime type: " ∧
    stop_runtime baseWorld emptyState "" =
      (emptyState, [],
       Except.error "Stopping non-Docker runtimes not yet implemented") ∧
    get_runtime_status baseWorld "docker" =
      Except.error "Invalid Docker runtime ID" ∧
    estimate_resource_usage baseWorld "docker" =
      Except.error "Invalid Docker runtime ID" ∧
    (start_runtime baseWorld emptyState "docker" "exe" [] none).2.2 =
      Except.error "Invalid Docker runtime ID" :=
  ⟨rfl, rfl, rfl, rfl, rfl, rfl, rfl, rfl⟩

/-- C8 counterexample: the Docker container state field is not mapped
"directly" to the reported status: an inspect output of `paused` is reported
as `stopped`. -/
theorem C8_counterexample :
    get_runtime_status pausedWorld "docker_c" =
      Except.ok { status := "stopped", version := none, uptime_seconds := none,
                  port := none, error := none } ∧
    rustTrim "paused" = "paused" ∧
    ("stopped" : String) ≠ "paused" :=
  ⟨rfl, rfl, by decide⟩

/-- C8 (amended): `get_runtime_status` dispatches by type tag: for `ollama`
and `localai` a successful HTTP probe maps to `running`, a non-success
response maps to `error` with an explanatory message, and a connection
failure maps to `stopped`; for `docker` a trimmed inspect state equal to
`running` is reported as `running` and any other state as `stopped`; and for
`python` and `node` the status is always `stopped` with no error. -/
theorem C8_status_dispatch (env : ExtWorld) (rid : String) :
    (∀ rest, rustSplit '_' rid = "ollama" :: rest →
      (∀ b, env.ollamaHttp = HttpResult.success b →
        get_runtime_status env rid =
          Except.ok { status := "running", version := b, uptime_seconds := none,
                      port := some 11434, error := none }) ∧
      (env.ollamaHttp = HttpResult.failure →
        get_runtime_status env rid =
          Except.ok { status := "error", version := none, uptime_seconds := none,
                      port := some 11434,
                      error := some "Ollama API returned error" }) ∧
      (env.ollamaHttp = HttpResult.connError →
        get_runtime_status env rid =
          Except.ok { status := "stopped", version := none,
                      uptime_seconds := none, port := some 11434,
                      error := none })) ∧
    (∀ rest, rustSplit '_' rid = "localai" :: rest →
      (∀ b, env.localaiHttp = HttpResult.success b →
        get_runtime_status env rid =
          Except.ok { status := "running", version := none,
                      uptime_seconds := none, port := some 8080,
                      error := none }) ∧
      (env.localaiHttp = HttpResult.failure →
        get_runtime_status env rid =
          Except.ok { status := "error", version := none, uptime_seconds := none,
                      port := some 8080,
                      error := some "LocalAI API returned error" }) ∧
      (env.localaiHttp = HttpResult.connError →
        get_runtime_status env rid =
          Except.ok { status := "stopped", version := none,
                      uptime_seconds := none, port := some 8080,
                      error := none })) ∧
    (∀ c rest out, rustSplit '_' rid = "docker" :: c :: rest →
      env.dockerInspect c = Except.ok out → out.success = true →
      get_runtime_status env rid =
        Except.ok { status := if rustTrim out.stdout = "running" then "running"
                      else "stopped",
                    version := none, uptime_seconds := none, port := none,
                    error := none }) ∧
    (∀ rt rest, rustSplit '_' rid = rt :: rest → (rt = "python" ∨ rt = "node") →
      get_runtime_status env rid =
        Except.ok { status := "stopped", version := none, uptime_seconds := none,
                    port := none, error := none }) := by
  refine ⟨?_, ?_, ?_, ?_⟩
  · intro rest hs
    exact ⟨fun b h => by simp [get_runtime_status, hs, check_ollama_status, h],
      fun h => by simp [get_runtime_status, hs, check_ollama_status, h],
      fun h => by simp [get_runtime_status, hs, check_ollama_status, h]⟩
  · intro rest hs
    exact ⟨fun b h => by simp [get_runtime_status, hs, check_localai_status, h],
      fun h => by simp [get_runtime_status, hs, check_localai_status, h],
      fun h => by simp [get_runtime_status, hs, check_localai_status, h]⟩
  · intro c rest out hs hc hsu
    simp [get_runtime_status, hs, check_docker_status, hc, hsu]
  · intro rt rest hs hrt
    rcases hrt with h | h <;> subst h <;> simp [get_runtime_status, hs]

/-- Witness for C8 (amended): a python identifier always reports stopped, a
paused docker container reports stopped, and a connection-refused ollama
probe reports stopped. -/
theorem C8_status_dispatch_witness :
    get_runtime_status pausedWorld "python_python3" =
      Except.ok { status := "stopped", version := none, uptime_seconds := none,
                  port := none, error := none } ∧
    get_runtime_status pausedWorld "docker_c" =
      Except.ok { status := if rustTrim "paused" = "running" then "running"
                    else "stopped",
                  version := none, uptime_seconds := none, port := none,
                  error := none } ∧
    get_runtime_status pausedWorld "ollama_ollama" =
      Except.ok { status := "stopped", version := none, uptime_seconds := none,
                  port := some 11434, error := none } := by
  refine ⟨(C8_status_dispatch pausedWorld "python_python3").2.2.2 "python"
      ["python3"] (by decide) (Or.inl rfl),
    (C8_status_dispatch pausedWorld "docker_c").2.2.1 "c" []
      { success := true, stdout := "paused", stderr := "" } (by decide) rfl rfl,
    ((C8_status_dispatch pausedWorld "ollama_ollama").1 ["ollama"]
      (by decide)).2.2 rfl⟩

theorem revPrefix_MiB_not_GiB (l : List Char)
    (h : List.isPrefixOf ['B', 'i', 'M'] l = true) :
    List.isPrefixOf ['B', 'i', 'G'] l = false := by
  rcases l with _ | ⟨a, _ | ⟨b, _ | ⟨c, l⟩⟩⟩ <;> simp [List.isPrefixOf] at h ⊢
  rcases h with ⟨h1, h2, h3⟩
  rintro - - h4
  rw [← h3] at h4
  exact absurd h4 (by decide)

theorem revPrefix_KiB_not_GiB (l : List Char)
    (h : List.isPrefixOf ['B', 'i', 'K'] l = true) :
    List.isPrefixOf ['B', 'i', 'G'] l = false := by
  rcases l with _ | ⟨a, _ | ⟨b, _ | ⟨c, l⟩⟩⟩ <;> simp [List.isPrefixOf] at h ⊢
  rcases h with ⟨h1, h2, h3⟩
  rintro - - h4
  rw [← h3] at h4
  exact absurd h4 (by decide)

theorem revPrefix_KiB_not_MiB (l : List Char)
    (h : List.isPrefixOf ['B', 'i', 'K'] l = true) :
    List.isPrefixOf ['B', 'i', 'M'] l = false := by
  rcases l with _ | ⟨a, _ | ⟨b, _ | ⟨c, l⟩⟩⟩ <;> simp [List.isPrefixOf] at h ⊢
  rcases h with ⟨h1, h2, h3⟩
  rintro - - h4
  rw [← h3] at h4
  exact absurd h4 (by decide)

attribute [local semireducible] Rat.mul Rat.inv Rat.add Rat.sub Rat.ofScientific in
/-- C6: the Docker memory field is parsed by taking the substring before
`'/'`, trimming, and converting by unit suffix: a `GiB` value is multiplied
by 1024, a `MiB` value is taken as-is, a `KiB` value is divided by 1024; an
unrecognised suffix yields `0.0` (as does an unparsable numeric prefix via
the `getD 0` fallback); in particular `"123.4MiB" → 123.4`,
`"1.5GiB" → 1536.0`, `"512KiB" → 0.5` and `"garbage" → 0.0`. -/
theorem C6_memory_parsing :
    (∀ env c out p0 p1 rest,
      env.dockerStats c = Except.ok out → out.success = true →
      rustSplit '|' (rustTrim out.stdout) = p0 :: p1 :: rest →
      ∃ u, estimate_docker_usage env c = Except.ok u ∧
        u.memory_mb =
          parse_memory_string (rustTrim ((rustSplit '/' p0).headD "0"))) ∧
    (∀ s, endsWithStr (rustTrim s) "GiB" = true →
      parse_memory_string s =
        ((parseF (rustTrimEndMatches "GiB" (rustTrim s))).getD 0) * 1024) ∧
    (∀ s, endsWithStr (rustTrim s) "MiB" = true →
      parse_memory_string s =
        (parseF (rustTrimEndMatches "MiB" (rustTrim s))).getD 0) ∧
    (∀ s, endsWithStr (rustTrim s) "KiB" = true →
      parse_memory_string s =
        ((parseF (rustTrimEndMatches "KiB" (rustTrim s))).getD 0) / 1024) ∧
    (∀ s, endsWithStr (rustTrim s) "GiB" = false →
      endsWithStr (rustTrim s) "MiB" = false →
      endsWithStr (rustTrim s) "KiB" = false →
      parse_memory_string s = 0) ∧
    parse_memory_string "123.4MiB" = 123.4 ∧
    parse_memory_string "1.5GiB" = 1536 ∧
    parse_memory_string "512KiB" = 0.5 ∧
    parse_memory_string "garbage" = 0 := by
  refine ⟨?_, ?_, ?_, ?_, ?_, by decide, by decide, by decide, by decide⟩
  · intro env c out p0 p1 rest hc hsu hsplit
    refine ⟨ResourceUsage.mk
        (parse_memory_string (rustTrim ((rustSplit '/' p0).headD "0")))
        none
        ((parseF (rustTrimEndChar '%' (rustTrim p1))).getD 0),
      ?_, rfl⟩
    unfold estimate_docker_usage
    rw [hc]
    simp [hsu, hsplit]
  · intro s h
    simp [parse_memory_string, h]
  · intro s h
    have hg : endsWithStr (rustTrim s) "GiB" = false :=
      revPrefix_MiB_not_GiB _ h
    simp [parse_memory_string, h, hg]
  · intro s h
    have hg : endsWithStr (rustTrim s) "GiB" = false :=
      revPrefix_KiB_not_GiB _ h
    have hm : endsWithStr (rustTrim s) "MiB" = false :=
      revPrefix_KiB_not_MiB _ h
    simp [parse_memory_string, h, hg, hm]
  · intro s hg hm hk
    simp [parse_memory_string, hg, hm, hk]

attribute [local semireducible] Rat.mul Rat.inv Rat.add Rat.sub Rat.ofScientific in
/-- Witness for C6: the docker stats line `"10MiB / 2GiB|5%"` parses to a
10 MB usage, and the GiB clause applies to `"1.5GiB"`. -/
theorem C6_memory_parsing_witness :
    (∃ u, estimate_docker_usage baseWorld "c" = Except.ok u ∧
      u.memory_mb =
        parse_memory_string
          (rustTrim ((rustSplit '/' "10MiB / 2GiB").headD "0"))) ∧
    parse_memory_string "1.5GiB" =
      ((parseF (rustTrimEndMatches "GiB" (rustTrim "1.5GiB"))).getD 0) * 1024 :=
  ⟨C6_memory_parsing.1 baseWorld "c"
      { success := true, stdout := "10MiB / 2GiB|5%", stderr := "" }
      "10MiB / 2GiB" "5%" [] rfl rfl (by decide),
   C6_memory_parsing.2.1 "1.5GiB" (by decide)⟩

/-! ## Non-negativity machinery for resource estimation (C4) -/

theorem mem_of_stripRepeatAux (pat : List Char) (n : Nat) (l : List Char)
    (c : Char) (h : c ∈ stripRepeatAux pat n l) : c ∈ l := by
  induction n generalizing l with
  | zero => simpa [stripRepeatAux] using h
  | succ n ih =>
    rw [stripRepeatAux] at h
    split at h
    · exact List.mem_of_mem_drop (ih _ h)
    · exact h

theorem mem_of_rustTrim (s : String) (c : Char) (h : c ∈ (rustTrim s).data) :
    c ∈ s.data := by
  replace h : c ∈ ((s.data.dropWhile Char.isWhitespace).reverse.dropWhile
      Char.isWhitespace).reverse := h
  rw [List.mem_reverse] at h
  have h2 := (List.dropWhile_sublist _).mem h
  rw [List.mem_reverse] at h2
  exact (List.dropWhile_sublist _).mem h2

theorem mem_of_rustTrimEndMatches (pat s : String) (c : Char)
    (h : c ∈ (rustTrimEndMatches pat s).data) : c ∈ s.data := by
  replace h : c ∈ (stripRepeatAux pat.data.reverse s.data.length
      s.data.reverse).reverse := h
  rw [List.mem_reverse] at h
  have h2 := mem_of_stripRepeatAux _ _ _ _ h
  rwa [List.mem_reverse] at h2

theorem mem_of_rustTrimEndChar (d : Char) (s : String) (c : Char)
    (h : c ∈ (rustTrimEndChar d s).data) : c ∈ s.data := by
  replace h : c ∈ (s.data.reverse.dropWhile (fun x => x = d)).reverse := h
  rw [List.mem_reverse] at h
  have h2 := (List.dropWhile_sublist _).mem h
  rwa [List.mem_reverse] at h2

theorem mem_of_splitCharsAux (sep : Char) (l : List Char) (c : Char)
    (piece : List Char) (hp : piece ∈ splitCharsAux sep l) (hc : c ∈ piece) :
    c ∈ l := by
  induction l generalizing piece with
  | nil =>
    simp only [splitCharsAux, List.mem_singleton] at hp
    subst hp
    simp at hc
  | cons a rest ih =>
    simp only [splitCharsAux] at hp
    by_cases ha : a = sep
    · rw [if_pos ha] at hp
      rcases List.mem_cons.1 hp with hp | hp
      · subst hp
        simp at hc
      · exact List.mem_cons_of_mem a (ih piece hp hc)
    · rw [if_neg ha] at hp
      rcases List.mem_cons.1 hp with hp | hp
      · subst hp
        rcases hr : splitCharsAux sep rest with _ | ⟨p0, tl⟩
        · exact absurd hr (splitCharsAux_ne_nil sep rest)
        · rw [hr] at hc
          simp only [List.headD_cons] at hc
          rcases List.mem_cons.1 hc with hc | hc
          · subst hc
            exact List.mem_cons_self _ _
          · refine List.mem_cons_of_mem a (ih p0 ?_ hc)
            rw [hr]
            exact List.mem_cons_self _ _
      · exact List.mem_cons_of_mem a
          (ih piece (List.mem_of_mem_tail hp) hc)

theorem mem_of_rustSplit (sep : Char) (s p : String) (c : Char)
    (hp : p ∈ rustSplit sep s) (hc : c ∈ p.data) : c ∈ s.data := by
  simp only [rustSplit, List.mem_map] at hp
  obtain ⟨piece, hpiece, hmk⟩ := hp
  have hd : p.data = piece := by rw [← hmk]
  rw [hd] at hc
  exact mem_of_splitCharsAux sep s.data c piece hpiece hc

theorem parseSign_fst_eq_one (cs : List Char) (h : ¬ '-' ∈ cs) :
    (parseSign cs).1 = 1 := by
  cases cs with
  | nil => rfl
  | cons c r =>
    have hc : ¬c = '-' := fun e => h (e ▸ List.mem_cons_self c r)
    by_cases hp : c = '+' <;> simp [parseSign, hp, hc]

theorem parseExp_nonneg (mant : ℚ) (hm : 0 ≤ mant) (cs : List Char) (q : ℚ)
    (h : parseExp 1 mant cs = some q) : 0 ≤ q := by
  cases cs with
  | nil =>
    simp only [parseExp, Option.some.injEq, one_mul] at h
    exact h ▸ hm
  | cons e r =>
    rw [parseExp] at h
    split at h
    · dsimp only at h
      split at h
      · exact absurd h (by simp)
      · simp only [Option.some.injEq, one_mul] at h
        subst h
        have hpw : (0 : ℚ) ≤ (10 : ℚ) ^ digitsToNat ((parseExpSign r).2.takeWhile Char.isDigit) :=
          pow_nonneg (by norm_num) _
        split
        · exact mul_nonneg hm hpw
        · exact div_nonneg hm hpw
    · exact absurd h (by simp)

theorem parseF_nonneg (s : String) (h : ¬ '-' ∈ s.data) (q : ℚ)
    (hq : parseF s = some q) : 0 ≤ q := by
  simp only [parseF] at hq
  split at hq
  · exact absurd hq (by simp)
  · rw [parseSign_fst_eq_one s.data h] at hq
    refine parseExp_nonneg _ ?_ _ _ hq
    positivity

theorem parseF_getD_nonneg (s : String) (h : ¬ '-' ∈ s.data) :
    0 ≤ (parseF s).getD 0 := by
  rcases hp : parseF s with _ | q
  · simp
  · simpa using parseF_nonneg s h q hp

theorem parse_memory_string_nonneg (s : String) (h : ¬ '-' ∈ s.data) :
    0 ≤ parse_memory_string s := by
  have ht : ∀ pat : String, ¬ '-' ∈ (rustTrimEndMatches pat (rustTrim s)).data := by
    intro pat hmem
    exact h (mem_of_rustTrim s _ (mem_of_rustTrimEndMatches pat _ _ hmem))
  unfold parse_memory_string
  dsimp only
  split
  · exact mul_nonneg (parseF_getD_nonneg _ (ht "GiB")) (by norm_num)
  · split
    · exact parseF_getD_nonneg _ (ht "MiB")
    · split
      · exact div_nonneg (parseF_getD_nonneg _ (ht "KiB")) (by norm_num)
      · norm_num

theorem sumUsage_cpu_nonneg_aux (pname : String) (procs : List ProcEntry)
    (h : ∀ p ∈ procs, 0 ≤ p.cpu_usage) (acc : Nat × ℚ) (ha : 0 ≤ acc.2) :
    0 ≤ (procs.foldl
      (fun acc p =>
        if strContains (rustLower p.name) (rustLower pname) then
          (acc.1 + p.memory, acc.2 + p.cpu_usage)
        else acc) acc).2 := by
  induction procs generalizing acc with
  | nil => simpa using ha
  | cons p tl ih =>
    simp only [List.foldl_cons]
    refine ih (fun q hq => h q (List.mem_cons_of_mem _ hq)) _ ?_
    split
    · exact add_nonneg ha (h p (List.mem_cons_self _ _))
    · exact ha

theorem sumProcUsage_cpu_nonneg (procs : List ProcEntry) (pname : String)
    (h : ∀ p ∈ procs, 0 ≤ p.cpu_usage) : 0 ≤ (sumProcUsage procs pname).2 :=
  sumUsage_cpu_nonneg_aux pname procs h (0, 0) le_rfl

theorem sumProcUsage_no_match (procs : List ProcEntry) (pname : String)
    (h : ∀ p ∈ procs, strContains (rustLower p.name) (rustLower pname) = false) :
    sumProcUsage procs pname = (0, 0) := by
  unfold sumProcUsage
  induction procs with
  | nil => rfl
  | cons p tl ih =>
    have hp := h p (List.mem_cons_self _ _)
    rw [List.foldl_cons, if_neg (by simp [hp])]
    exact ih (fun q hq => h q (List.mem_cons_of_mem _ hq))

attribute [local semireducible] Rat.mul Rat.inv Rat.add Rat.sub Rat.ofScientific in
/-- C4 counterexample: the non-negativity claimed "for every possible
external stats input" fails — a Docker stats line carrying a negative
memory reading parses to a negative `memory_mb`. -/
theorem C4_counterexample :
    estimate_resource_usage negStatsWorld "docker_c" =
      Except.ok (ResourceUsage.mk (-5) none 10) ∧
    (ResourceUsage.mk (-5 : ℚ) none 10).memory_mb < 0 :=
  ⟨rfl, by decide⟩

/-- C4 (amended): provided the external readings are themselves
non-negative — every process-table CPU reading is `≥ 0` and the Docker
stats line contains no `'-'` — every `Ok` answer of
`estimate_resource_usage` has `memory_mb ≥ 0`, `cpu_percent ≥ 0` and no
VRAM value; an identifier with an unknown backend tag yields the zero-usage
result rather than an error, and an `ollama` identifier with no matching
process-table entry also yields the zero-usage result. -/
theorem C4_resource_usage_nonneg (env : ExtWorld) (rid : String)
    (hcpu : ∀ p ∈ env.procTable, 0 ≤ p.cpu_usage)
    (hstats : ∀ c out, env.dockerStats c = Except.ok out →
      ¬ '-' ∈ out.stdout.data) :
    (∀ u, estimate_resource_usage env rid = Except.ok u →
      0 ≤ u.memory_mb ∧ 0 ≤ u.cpu_percent ∧ u.vram_mb = none) ∧
    (∀ rt rest, rustSplit '_' rid = rt :: rest → rt ≠ "ollama" →
      rt ≠ "localai" → rt ≠ "docker" →
      estimate_resource_usage env rid = Except.ok (ResourceUsage.mk 0 none 0)) ∧
    (∀ rest, rustSplit '_' rid = "ollama" :: rest →
      (∀ p ∈ env.procTable,
        strContains (rustLower p.name) (rustLower "ollama") = false) →
      estimate_resource_usage env rid =
        Except.ok (ResourceUsage.mk 0 none 0)) := by
  refine ⟨?_, ?_, ?_⟩
  · intro u hu
    unfold estimate_resource_usage at hu
    rcases hsp : rustSplit '_' rid with _ | ⟨rt, rest⟩
    · rw [hsp] at hu
      simp at hu
    · rw [hsp] at hu
      dsimp only at hu
      by_cases h1 : rt = "ollama"
      · rw [if_pos h1] at hu
        unfold estimate_process_usage at hu
        simp only [Except.ok.injEq] at hu
        subst hu
        refine ⟨by positivity, sumProcUsage_cpu_nonneg _ _ hcpu, rfl⟩
      · by_cases h2 : rt = "localai"
        · rw [if_neg h1, if_pos h2] at hu
          unfold estimate_process_usage at hu
          simp only [Except.ok.injEq] at hu
          subst hu
          refine ⟨by positivity, sumProcUsage_cpu_nonneg _ _ hcpu, rfl⟩
        · by_cases h3 : rt = "docker"
          · rw [if_neg h1, if_neg h2, if_pos h3] at hu
            rcases rest with _ | ⟨c, rest⟩
            · simp at hu
            · unfold estimate_docker_usage at hu
              dsimp only at hu
              rcases hc : env.dockerStats c with e | out
              · rw [hc] at hu
                simp at hu
              · rw [hc] at hu
                dsimp only at hu
                have hnm := hstats c out hc
                by_cases hsu : out.success
                · rw [if_neg (by simp [hsu])] at hu
                  rcases hpz : rustSplit '|' (rustTrim out.stdout)
                    with _ | ⟨p0, _ | ⟨p1, ps⟩⟩ <;> rw [hpz] at hu
                  · simp at hu
                  · simp at hu
                  · simp only [Except.ok.injEq] at hu
                    subst hu
                    have hp0 : ¬ '-' ∈ p0.data := by
                      intro hmem
                      refine hnm (mem_of_rustTrim _ _
                        (mem_of_rustSplit '|' (rustTrim out.stdout) p0 '-'
                          ?_ hmem))
                      rw [hpz]
                      exact List.mem_cons_self _ _
                    have hp1 : ¬ '-' ∈ p1.data := by
                      intro hmem
                      refine hnm (mem_of_rustTrim _ _
                        (mem_of_rustSplit '|' (rustTrim out.stdout) p1 '-'
                          ?_ hmem))
                      rw [hpz]
                      exact List.mem_cons_of_mem _ (List.mem_cons_self _ _)
                    refine ⟨?_, ?_, rfl⟩
                    · refine parse_memory_string_nonneg _ ?_
                      intro hmem
                      have hmem2 := mem_of_rustTrim _ _ hmem
                      rcases hq : rustSplit '/' p0 with _ | ⟨q0, qs⟩
                      · exact absurd hq (rustSplit_ne_nil '/' p0)
                      · rw [hq] at hmem2
                        simp only [List.headD_cons] at hmem2
                        refine hp0 (mem_of_rustSplit '/' p0 q0 '-' ?_ hmem2)
                        rw [hq]
                        exact List.mem_cons_self _ _
                    · refine parseF_getD_nonneg _ ?_
                      intro hmem
                      exact hp1 (mem_of_rustTrim _ _
                        (mem_of_rustTrimEndChar '%' _ _ hmem))
                · rw [if_pos (by simp [hsu])] at hu
                  simp at hu
          · rw [if_neg h1, if_neg h2, if_neg h3] at hu
            simp only [Except.ok.injEq] at hu
            subst hu
            exact ⟨le_rfl, le_rfl, rfl⟩
  · intro rt rest hsp h1 h2 h3
    unfold estimate_resource_usage
    rw [hsp]
    dsimp only
    rw [if_neg h1, if_neg h2, if_neg h3]
  · intro rest hsp hmatch
    unfold estimate_resource_usage
    rw [hsp]
    dsimp only
    rw [if_pos rfl]
    unfold estimate_process_usage
    rw [sumProcUsage_no_match _ _ hmatch]
    norm_num

attribute [local semireducible] Rat.mul Rat.inv Rat.add Rat.sub Rat.ofScientific in
/-- Witness for C4 (amended) at a well-formed Docker stats line. -/
theorem C4_resource_usage_nonneg_witness :
    0 ≤ (ResourceUsage.mk (10 : ℚ) none 5).memory_mb ∧
    0 ≤ (ResourceUsage.mk (10 : ℚ) none 5).cpu_percent ∧
    (ResourceUsage.mk (10 : ℚ) none 5).vram_mb = none := by
  have hcpu : ∀ p ∈ baseWorld.procTable, 0 ≤ p.cpu_usage := by
    intro p hp
    have hp2 : p ∈ ([] : List ProcEntry) := hp
    simp at hp2
  have hstats : ∀ c out, baseWorld.dockerStats c = Except.ok out →
      ¬ '-' ∈ out.stdout.data := by
    intro c out h
    have h2 : Except.ok (CommandOutput.mk true "10MiB / 2GiB|5%" "") =
        Except.ok out := h
    injection h2 with h3
    subst h3
    decide
  exact (C4_resource_usage_nonneg baseWorld "docker_c" hcpu hstats).1
    (ResourceUsage.mk 10 none 5) rfl
